import Mathlib

/-!
Verification of the functions defined in
`HighPerformance/Stage2_UsingAppropriateDataStructures.ipynb`.

The notebook defines three pairs of benchmark functions:

* `build_list` / `build_array` build the sequence `0, 1, ..., count-1`
  by repeated append, into a Python list resp. a NumPy `float64` array;
* `square_all_list` / `square_all_array` square every element of a
  sequence, by an explicit loop resp. a vectorised whole-array `**2`;
* `square_list_FL` / `square_list_LC` square every element of a list,
  by a for-loop resp. a list comprehension;

together with `generate_dense_matrix`, which produces a random square
complex 0/1-patterned buffer, and the two exponentiation idioms
`big_matrix**300` (NumPy `matrix` power, i.e. iterated matrix
multiplication) and `big_ndarray**300` (element-wise power).

Python lists of numbers are modelled as `List ℤ` (the element-wise
claims are carrier-independent, both members of each pair apply the
identical per-element operation).  NumPy `float64` values are modelled
by the wrapper type `Float64` together with the conversion `fl`, which
rounds a natural number to the nearest 53-bit-significand value,
ties to even - the IEEE-754 binary64 conversion applied by
`np.append` when an integer is appended to a `float64` array.
Complex buffers are `Matrix (Fin n) (Fin n) ℂ`.
-/

/-- A NumPy `float64` element holding an integral value: the wrapper
records the value actually stored after conversion to binary64. -/
structure Float64 where
  val : ℕ
  deriving DecidableEq, Repr

/-- Conversion of a natural number to the nearest IEEE-754 binary64
value (53-bit significand, round to nearest, ties to even), at the
value level.  Numbers below `2^53` are exact; larger numbers round to
a multiple of the unit in the last place of their binade. -/
def fl (n : ℕ) : ℕ :=
  if n < 2 ^ 53 then n
  else
    let ulp := 2 ^ (Nat.log2 n - 52)
    let q := n / ulp
    let r := n % ulp
    if 2 * r < ulp then q * ulp
    else if ulp < 2 * r then (q + 1) * ulp
    else (if q % 2 = 0 then q else q + 1) * ulp

/-- `build_list(count)`: start from the empty list and append
`0, 1, ..., count-1` in order. -/
def build_list (count : ℕ) : List ℕ :=
  (List.range count).foldl (fun out i => out ++ [i]) []

/-- `build_array(count)`: start from the empty `float64` array
`np.array([])` and `np.append` each of `0, 1, ..., count-1`; every
appended integer is converted to `float64` on the way in. -/
def build_array (count : ℕ) : List Float64 :=
  (List.range count).foldl (fun out i => out ++ [Float64.mk (fl i)]) []

/-- `big_matrix**300` semantics: exponentiation of a NumPy `matrix` is
iterated matrix multiplication (`A ** p` is the `p`-fold matrix
product). -/
def matrix_pow {n : ℕ} (A : Matrix (Fin n) (Fin n) ℂ) (p : ℕ) : Matrix (Fin n) (Fin n) ℂ :=
  A ^ p

/-- `big_ndarray**300` semantics: exponentiation of a NumPy `ndarray`
is element-wise (`A ** p` raises each entry to the `p`-th power). -/
def ndarray_pow {n : ℕ} (A : Matrix (Fin n) (Fin n) ℂ) (p : ℕ) : Matrix (Fin n) (Fin n) ℂ :=
  Matrix.of fun i j => A i j ^ p

/-- A concrete 2x2 complex buffer with the 0/1 entry pattern the
notebook's generator produces (real parts thresholded to 0 or 1,
imaginary parts 0): it separates the two exponentiation semantics. -/
def nilpotent01 : Matrix (Fin 2) (Fin 2) ℂ := !![0, 1; 0, 0]

/-- `generate_dense_matrix(N, density)`: `real = np.random.rand(N,N) >
density/2`, `imaginary = (np.random.rand(N,N) > density/2)*1j`, and the
result is `real + imaginary`.  The two `rand` draws are passed in
explicitly as rational-valued sample functions, one per entry. -/
def generate_dense_matrix (N : ℕ) (density : ℚ) (rsamp isamp : Fin N → Fin N → ℚ) :
    Matrix (Fin N) (Fin N) ℂ :=
  Matrix.of fun i j =>
    (if density / 2 < rsamp i j then 1 else 0) +
      (if density / 2 < isamp i j then 1 else 0) * Complex.I

/-- `square_all_array(list_struct)`: the vectorised `list_struct**2`,
squaring every element of the buffer at once. -/
def square_all_array (list_struct : List ℤ) : List ℤ :=
  list_struct.map (fun x => x ^ 2)

/-- `square_all_list(list_struct)`: explicit loop appending `i**2`
to a fresh output list. -/
def square_all_list (list_struct : List ℤ) : List ℤ :=
  list_struct.foldl (fun out i => out ++ [i ^ 2]) []

/-- `square_list_FL(list_struct)`: for-loop appending `element**2`
to a fresh output list. -/
def square_list_FL (list_struct : List ℤ) : List ℤ :=
  list_struct.foldl (fun out element => out ++ [element ^ 2]) []

/-- `square_list_LC(list_struct)`: the list comprehension
`[element**2 for element in list_struct]`. -/
def square_list_LC (list_struct : List ℤ) : List ℤ :=
  list_struct.map (fun element => element ^ 2)

/-- The store visible to a squaring call: the argument `list_struct`
and the local accumulator `out`.  The loop bodies of the notebook are
translated as explicit updates of this store, so that what each call
does to its argument becomes provable rather than implicit. -/
structure PyState where
  list_struct : List ℤ
  out : List ℤ

/-- Store-passing translation of `square_all_list`: `out = []`
allocates a fresh empty list, each iteration of
`for i in list_struct: out.append(i**2)` updates only `out`, and the
call returns the final `out` alongside the final state of the
argument. -/
def square_all_list_st (input : List ℤ) : List ℤ × List ℤ :=
  let s0 : PyState := { list_struct := input, out := [] }
  let s1 := s0.list_struct.foldl (fun s i => { s with out := s.out ++ [i ^ 2] }) s0
  (s1.out, s1.list_struct)

/-- Store-passing translation of `square_all_array`: `list_struct**2`
builds a new buffer of squared entries and leaves the argument as it
was. -/
def square_all_array_st (input : List ℤ) : List ℤ × List ℤ :=
  (input.map (fun x => x ^ 2), input)

/-- Store-passing translation of `square_list_FL`: same loop shape as
`square_all_list_st`, appending `element**2` to a fresh `out`. -/
def square_list_FL_st (input : List ℤ) : List ℤ × List ℤ :=
  let s0 : PyState := { list_struct := input, out := [] }
  let s1 := s0.list_struct.foldl (fun s element => { s with out := s.out ++ [element ^ 2] }) s0
  (s1.out, s1.list_struct)

/-- Store-passing translation of `square_list_LC`: the comprehension
builds a new list from the expression `element**2` and reads, never
writes, `list_struct`. -/
def square_list_LC_st (input : List ℤ) : List ℤ × List ℤ :=
  (input.map (fun element => element ^ 2), input)

/-- The squaring loop body touches only `out`: folding it over any
list leaves the `list_struct` component of the store unchanged. -/
theorem foldl_out_list_struct (l : List ℤ) (s : PyState) :
    (l.foldl (fun s i => { s with out := s.out ++ [i ^ 2] }) s).list_struct = s.list_struct := by
  induction l generalizing s with
  | nil => rfl
  | cons x xs ih => simp [List.foldl_cons, ih]

/-- The accumulator of the store-passing loop collects exactly the
squares, in order. -/
theorem foldl_out_collects (l : List ℤ) (s : PyState) :
    (l.foldl (fun s i => { s with out := s.out ++ [i ^ 2] }) s).out =
      s.out ++ l.map (fun x => x ^ 2) := by
  induction l generalizing s with
  | nil => simp
  | cons x xs ih => simp [List.foldl_cons, ih]

/-- Accumulate-by-append is map: the generic shape shared by all the
append-in-a-loop functions of the notebook. -/
theorem foldl_append_map {α β : Type} (f : α → β) (l : List α) (acc : List β) :
    l.foldl (fun out e => out ++ [f e]) acc = acc ++ l.map f := by
  induction l generalizing acc with
  | nil => simp
  | cons x xs ih => simp [List.foldl_cons, ih]

theorem square_all_list_eq_map (l : List ℤ) :
    square_all_list l = l.map (fun x => x ^ 2) := by
  simpa using foldl_append_map (fun x : ℤ => x ^ 2) l []

theorem square_list_FL_eq_map (l : List ℤ) :
    square_list_FL l = l.map (fun x => x ^ 2) := by
  simpa using foldl_append_map (fun x : ℤ => x ^ 2) l []

theorem build_list_eq_range (count : ℕ) :
    build_list count = List.range count := by
  simpa using foldl_append_map (fun i : ℕ => i) (List.range count) []

theorem build_array_eq_map_range (count : ℕ) :
    build_array count = (List.range count).map (fun i => Float64.mk (fl i)) := by
  simpa using foldl_append_map (fun i : ℕ => Float64.mk (fl i)) (List.range count) []

theorem fl_of_lt (n : ℕ) (h : n < 2 ^ 53) : fl n = n := by
  unfold fl
  rw [if_pos h]

theorem log2_two_pow_53 : Nat.log2 (2 ^ 53) = 53 := by
  rw [Nat.log2_eq_log_two]
  exact Nat.log_eq_of_pow_le_of_lt_pow le_rfl (by norm_num)

theorem log2_two_pow_53_succ : Nat.log2 (2 ^ 53 + 1) = 53 := by
  rw [Nat.log2_eq_log_two]
  exact Nat.log_eq_of_pow_le_of_lt_pow (by norm_num) (by norm_num)

/-- `2^53` itself is exactly representable in binary64. -/
theorem fl_pow53 : fl (2 ^ 53) = 2 ^ 53 := by
  unfold fl
  rw [if_neg (by norm_num), log2_two_pow_53]
  norm_num

/-- `2^53 + 1` is the first natural number binary64 cannot hold: the
round-to-nearest-ties-to-even conversion sends it to `2^53`. -/
theorem fl_pow53_succ : fl (2 ^ 53 + 1) = 2 ^ 53 := by
  unfold fl
  rw [if_neg (by norm_num), log2_two_pow_53_succ]
  norm_num

theorem fl_of_le (n : ℕ) (h : n ≤ 2 ^ 53) : fl n = n := by
  rcases Nat.lt_or_ge n (2 ^ 53) with hlt | hge
  · exact fl_of_lt n hlt
  · rw [Nat.le_antisymm h hge]
    exact fl_pow53

theorem build_array_val_eq_map_fl (count : ℕ) :
    (build_array count).map Float64.val = (List.range count).map fl := by
  rw [build_array_eq_map_range, List.map_map]
  rfl

theorem map_fl_range_of_le (N : ℕ) (h : N ≤ 2 ^ 53 + 1) :
    (List.range N).map fl = List.range N := by
  rw [show List.range N = (List.range N).map id from (List.map_id _).symm, List.map_map]
  refine List.map_congr_left ?_
  intro i hi
  rw [List.mem_range] at hi
  have hle : i ≤ 2 ^ 53 := Nat.lt_succ_iff.mp (Nat.lt_of_lt_of_le hi h)
  simpa using fl_of_le i hle

/-- The element at index `2^53 + 1` of the rounded range is `2^53`,
not `2^53 + 1`: the conversion to binary64 has collapsed two
consecutive integers. -/
theorem map_fl_range_getElem_big :
    ((List.range (2 ^ 53 + 2)).map fl)[2 ^ 53 + 1]? = some (2 ^ 53) := by
  rw [List.getElem?_map, List.getElem?_range (by norm_num), Option.map_some']
  rw [fl_pow53_succ]

/-- Claim C2: for every input sequence, the accumulation loop
`square_list_FL` and the comprehension `square_list_LC` return the
identical ordered sequence, namely the squares of the input elements
in input order. -/
theorem square_list_FL_eq_LC (l : List ℤ) :
    square_list_FL l = square_list_LC l ∧
      square_list_LC l = l.map (fun x => x ^ 2) := by
  refine ⟨?_, rfl⟩
  rw [square_list_FL_eq_map]
  rfl

/-- Claim C3: for every input sequence `S`, the explicit loop
`square_all_list` and the vectorised `square_all_array` produce equal
sequences of squared values, of the same length as `S` and preserving
its order (position `i` of the result is the square of position `i`
of `S`). -/
theorem square_all_list_eq_array (S : List ℤ) :
    square_all_list S = square_all_array S ∧
      square_all_array S = S.map (fun x => x ^ 2) ∧
      (square_all_array S).length = S.length := by
  refine ⟨?_, rfl, by simp [square_all_array]⟩
  rw [square_all_list_eq_map]
  rfl

/-- Claim C5: on the concrete input `[0,1,2,3]`, all four squaring
implementations of the notebook return `[0,1,4,9]`. -/
theorem square_functions_on_0123 :
    square_all_list [0, 1, 2, 3] = [0, 1, 4, 9] ∧
      square_all_array [0, 1, 2, 3] = [0, 1, 4, 9] ∧
      square_list_FL [0, 1, 2, 3] = [0, 1, 4, 9] ∧
      square_list_LC [0, 1, 2, 3] = [0, 1, 4, 9] := by
  refine ⟨?_, ?_, ?_, ?_⟩ <;> decide

/-- Claim C4, counterexample: at `count = 2^53 + 2` the float-typed
`build_array` no longer holds `range(count)` element-for-element: the
entry at index `2^53 + 1` has been rounded to `2^53`. -/
theorem build_array_not_range :
    (build_array (2 ^ 53 + 2)).map Float64.val ≠ List.range (2 ^ 53 + 2) := by
  intro h
  have h1 := map_fl_range_getElem_big
  rw [← build_array_val_eq_map_fl, h, List.getElem?_range (by norm_num)] at h1
  have h2 := Option.some.inj h1
  omega

/-- Claim C4 (amended: `build_list` equals `range(count)` for every
`count`, unconditionally; `build_array` agrees with `range(count)` in
value at every position whenever `count ≤ 2^53 + 1`, i.e. whenever
every appended integer is exactly representable in its binary64
element type; in particular `build_list 5 = [0,1,2,3,4]`). -/
theorem build_eq_range (N : ℕ) :
    build_list N = List.range N ∧
      (N ≤ 2 ^ 53 + 1 → (build_array N).map Float64.val = List.range N) ∧
      build_list 5 = [0, 1, 2, 3, 4] := by
  refine ⟨build_list_eq_range N, fun h => ?_, by decide⟩
  rw [build_array_val_eq_map_fl]
  exact map_fl_range_of_le N h

theorem build_eq_range_witness :
    build_list 5 = List.range 5 ∧
      (5 ≤ 2 ^ 53 + 1 ∧ (build_array 5).map Float64.val = List.range 5) ∧
      build_list 5 = [0, 1, 2, 3, 4] :=
  ⟨(build_eq_range 5).1, ⟨by decide, (build_eq_range 5).2.1 (by decide)⟩,
    (build_eq_range 5).2.2⟩

/-- Claim C7: both growth functions are total: for every count they
terminate normally (they are plain structurally terminating folds, with
no validation and no failure path - neither returns an error value)
and return a sequence, of length equal to the requested count. -/
theorem build_functions_total (count : ℕ) :
    (build_list count).length = count ∧ (build_array count).length = count := by
  rw [build_list_eq_range, build_array_eq_map_range]
  simp

/-- Claim C10, counterexample: value-level agreement between
`build_array` and `build_list` is not exact for every `count`: at
`count = 2^53 + 2` the integer `2^53 + 1` is not representable in
binary64 and rounds to `2^53`. -/
theorem build_array_ne_build_list :
    (build_array (2 ^ 53 + 2)).map Float64.val ≠ build_list (2 ^ 53 + 2) := by
  intro h
  have h1 := map_fl_range_getElem_big
  rw [← build_array_val_eq_map_fl, h, build_list_eq_range,
    List.getElem?_range (by norm_num)] at h1
  have h2 := Option.some.inj h1
  omega

/-- Claim C10 (amended: `build_array` stores binary64-converted values
while `build_list` stores the integers themselves, so the element types
differ; the values agree at every position for every
`count ≤ 2^53 + 1`, because integers up to `2^53` are exactly
representable in binary64 - but not for every `count`). -/
theorem build_array_val_agrees (N : ℕ) (h : N ≤ 2 ^ 53 + 1) :
    (build_array N).map Float64.val = build_list N := by
  rw [build_list_eq_range, build_array_val_eq_map_fl]
  exact map_fl_range_of_le N h

theorem build_array_val_agrees_witness :
    6 ≤ 2 ^ 53 + 1 ∧ (build_array 6).map Float64.val = build_list 6 :=
  ⟨by decide, build_array_val_agrees 6 (by decide)⟩

theorem nilpotent01_sq : nilpotent01 * nilpotent01 = 0 := by
  ext i j
  fin_cases i <;> fin_cases j <;>
    simp [nilpotent01, Matrix.mul_apply, Fin.sum_univ_two]

/-- Claim C1, counterexample: on the 0/1-patterned buffer
`!![0,1;0,0]` the `np.matrix` power (300-fold matrix product, here `0`
because the buffer is nilpotent) differs from the `np.ndarray` power
(element-wise 300th powers, which keep the `1` entry), so the two
abstractions do not yield equal results for every square complex
buffer. -/
theorem matrix_pow_ne_ndarray_pow :
    matrix_pow nilpotent01 300 ≠ ndarray_pow nilpotent01 300 := by
  intro h
  have h300 : matrix_pow nilpotent01 300 = 0 := by
    show nilpotent01 ^ 300 = 0
    have hm : nilpotent01 ^ 300 = (nilpotent01 ^ 2) ^ 150 := by rw [← pow_mul]
    rw [hm, pow_two, nilpotent01_sq]
    exact zero_pow (by norm_num)
  have h01 := congrFun (congrFun h 0) 1
  rw [h300] at h01
  have hr : ndarray_pow nilpotent01 300 0 1 = 1 := by
    simp [ndarray_pow, nilpotent01]
  rw [hr] at h01
  simp at h01

/-- Claim C1 (amended: `**300` on a `np.matrix` is the 300-fold matrix
product while on a `np.ndarray` it is the element-wise 300th power;
the two need not agree on a general square complex buffer, and they do
agree entry-for-entry on every diagonal buffer). -/
theorem matrix_pow_eq_ndarray_pow_diagonal (n : ℕ) (d : Fin n → ℂ) :
    matrix_pow (Matrix.diagonal d) 300 = ndarray_pow (Matrix.diagonal d) 300 := by
  show Matrix.diagonal d ^ 300 = _
  rw [Matrix.diagonal_pow]
  ext i j
  by_cases hij : i = j
  · subst hij
    simp [ndarray_pow, Matrix.diagonal_apply_eq]
  · simp [ndarray_pow, Matrix.of_apply, Matrix.diagonal_apply_ne _ hij,
      zero_pow (by norm_num : (300 : ℕ) ≠ 0)]

/-- Claim C6: whatever the dimension, the density and the realisation
of the two random draws, every entry of `generate_dense_matrix` has
real part 0 or 1 (the thresholded Boolean) and imaginary part 0 or 1
(the thresholded Boolean scaled by `1j`); the result is a dense square
buffer by type. -/
theorem generate_dense_matrix_entries (N : ℕ) (density : ℚ)
    (rsamp isamp : Fin N → Fin N → ℚ) (i j : Fin N) :
    ((generate_dense_matrix N density rsamp isamp i j).re = 0 ∨
        (generate_dense_matrix N density rsamp isamp i j).re = 1) ∧
      ((generate_dense_matrix N density rsamp isamp i j).im = 0 ∨
        (generate_dense_matrix N density rsamp isamp i j).im = 1) := by
  unfold generate_dense_matrix
  simp only [Matrix.of_apply]
  split_ifs <;> simp

/-- Claim C9: in the store-passing translation, each of the four
squaring calls returns its argument unchanged - the final value of
`list_struct` is the initial one - while the returned result is a
fresh accumulator holding the squares (so no squaring call mutates its
input sequence). -/
theorem squaring_functions_frame (l : List ℤ) :
    ((square_all_list_st l).2 = l ∧ (square_all_list_st l).1 = square_all_list l) ∧
      ((square_all_array_st l).2 = l ∧ (square_all_array_st l).1 = square_all_array l) ∧
      ((square_list_FL_st l).2 = l ∧ (square_list_FL_st l).1 = square_list_FL l) ∧
      ((square_list_LC_st l).2 = l ∧ (square_list_LC_st l).1 = square_list_LC l) := by
  refine ⟨⟨?_, ?_⟩, ⟨rfl, rfl⟩, ⟨?_, ?_⟩, ⟨rfl, rfl⟩⟩
  · exact foldl_out_list_struct l _
  · rw [show (square_all_list_st l).1 =
        (l.foldl (fun (s : PyState) i => { s with out := s.out ++ [i ^ 2] })
          { list_struct := l, out := [] }).out from rfl,
      foldl_out_collects, square_all_list_eq_map]
    rfl
  · exact foldl_out_list_struct l _
  · rw [show (square_list_FL_st l).1 =
        (l.foldl (fun (s : PyState) element => { s with out := s.out ++ [element ^ 2] })
          { list_struct := l, out := [] }).out from rfl,
      foldl_out_collects, square_list_FL_eq_map]
    rfl
